import Mathlib

/-!
Shallow embedding of the FCMPython repository (Telegram → FCM trading-signal
bridge) and verification of its specification claims.

Source files embedded:
* `config.py` — the three compiled regular expressions in `SIGNAL_PATTERNS`
  are embedded as explicit backtracking matchers over `List Char`.
* `signal_parser.py` — `parse_signal`.
* `statistics.py` — the `Statistics` accumulator (`log_signal`, `reset`,
  `get_summary`).
* `fcm_sender.py` — `send_signal_to_tokens`; the external
  `firebase_admin.messaging.send` call is modelled by tagging every token
  entry with the outcome its send attempt produces
  (success / `UnregisteredError` / other exception).
* `telegram_client.py` — the reconnect/backoff dynamics of
  `listen_telegram_signals` (retry counter, retry delay, flood-wait
  handling), modelled as a state machine with explicit slept-delay output.

Machine reals (Python floats) in the backoff computation are modelled as `ℚ`:
every value reached (`5 * 1.5^k` capped at `60`) is a dyadic rational that
Python floats represent exactly, so the embedding is exact.
-/

namespace FCM

/-! ### Character classes (Python `re` semantics, ASCII range)

`\s` in Python matches space, tab, newline, carriage return, vertical tab and
form feed; `\d` matches decimal digits; the input text is uppercased before
matching, so `re.IGNORECASE` on `[SB]` is immaterial.
-/

def isSpc (c : Char) : Bool :=
  c = ' ' || c = '\t' || c = '\n' || c = '\r' || c = '\x0b' || c = '\x0c'

/-- The separator class `[:.]` between hour and minute. -/
def isSep (c : Char) : Bool :=
  c = ':' || c = '.'

def isDigitCh (c : Char) : Bool :=
  '0' ≤ c && c ≤ '9'

/-- Numeric value of a digit character. -/
def dval (c : Char) : Nat :=
  c.toNat - '0'.toNat

/-- Python `str.upper()` on the ASCII range. -/
def toUpperCh (c : Char) : Char :=
  if 'a' ≤ c && c ≤ 'z' then Char.ofNat (c.toNat - 32) else c

/-- Python `str.lower()` on the ASCII range. -/
def toLowerCh (c : Char) : Char :=
  if 'A' ≤ c && c ≤ 'Z' then Char.ofNat (c.toNat + 32) else c

/-- Python `str.strip()`: drop leading and trailing whitespace. -/
def pyStrip (cs : List Char) : List Char :=
  ((cs.dropWhile isSpc).reverse.dropWhile isSpc).reverse

/-- Normalisation step of `parse_signal`: `message_text.strip().upper()`. -/
def normalizeText (cs : List Char) : List Char :=
  (pyStrip cs).map toUpperCh

/-! ### The `time_with_trend` patterns

`config.py`:
* `time_with_trend` : `(\d{1,2})[:\.]\s*(\d{2})\s+([SB])`
* `time_with_trend_strict`: `(\d{1,2})[:\.](\d{2})\s+([SB])`

`matchMinTrend` matches the common suffix `(\d{2})\s+([SB])` at the head of
the input and returns (minute value, trend letter, remaining input).
`\s+` followed by `[SB]` is matched by maximal munch, which is complete here
because the whitespace class and `[SB]` are disjoint.
-/

def matchMinTrend (cs : List Char) : Option (Nat × Char × List Char) :=
  match cs with
  | d1 :: d2 :: c3 :: rest =>
    if isDigitCh d1 && isDigitCh d2 && isSpc c3 then
      match rest.dropWhile isSpc with
      | t :: r => if t = 'S' || t = 'B' then some (10 * dval d1 + dval d2, t, r) else Option.none
      | [] => Option.none
    else Option.none
  | _ => Option.none

/-- The two-digit-hour alternative of `time_with_trend` at the head of the
input (`\d{1,2}` is greedy: two digits are tried first). -/
def matchAtLoose2 (cs : List Char) : Option (Nat × Nat × Char × List Char) :=
  match cs with
  | d1 :: d2 :: c3 :: rest =>
    if isDigitCh d1 && isDigitCh d2 && isSep c3 then
      match matchMinTrend (rest.dropWhile isSpc) with
      | some (m, t, r) => some (10 * dval d1 + dval d2, m, t, r)
      | Option.none => Option.none
    else Option.none
  | _ => Option.none

/-- The one-digit-hour alternative of `time_with_trend` at the head of the
input. -/
def matchAtLoose1 (cs : List Char) : Option (Nat × Nat × Char × List Char) :=
  match cs with
  | d1 :: c2 :: rest =>
    if isDigitCh d1 && isSep c2 then
      match matchMinTrend (rest.dropWhile isSpc) with
      | some (m, t, r) => some (dval d1, m, t, r)
      | Option.none => Option.none
    else Option.none
  | _ => Option.none

/-- Match of `time_with_trend` anchored at the head of the input: greedy
`\d{1,2}` backtracks from two digits to one. -/
def matchAtLoose (cs : List Char) : Option (Nat × Nat × Char × List Char) :=
  match matchAtLoose2 cs with
  | some x => some x
  | Option.none => matchAtLoose1 cs

/-- Two-digit-hour alternative of `time_with_trend_strict` (no `\s*` after the
separator). -/
def matchAtStrict2 (cs : List Char) : Option (Nat × Nat × Char × List Char) :=
  match cs with
  | d1 :: d2 :: c3 :: rest =>
    if isDigitCh d1 && isDigitCh d2 && isSep c3 then
      match matchMinTrend rest with
      | some (m, t, r) => some (10 * dval d1 + dval d2, m, t, r)
      | Option.none => Option.none
    else Option.none
  | _ => Option.none

/-- One-digit-hour alternative of `time_with_trend_strict`. -/
def matchAtStrict1 (cs : List Char) : Option (Nat × Nat × Char × List Char) :=
  match cs with
  | d1 :: c2 :: rest =>
    if isDigitCh d1 && isSep c2 then
      match matchMinTrend rest with
      | some (m, t, r) => some (dval d1, m, t, r)
      | Option.none => Option.none
    else Option.none
  | _ => Option.none

/-- Match of `time_with_trend_strict` anchored at the head of the input. -/
def matchAtStrict (cs : List Char) : Option (Nat × Nat × Char × List Char) :=
  match matchAtStrict2 cs with
  | some x => some x
  | Option.none => matchAtStrict1 cs

/-- Embedding of `SIGNAL_PATTERNS["time_with_trend"].search(text)`: leftmost match. -/
def searchLoose : List Char → Option (Nat × Nat × Char × List Char)
  | [] => Option.none
  | c :: cs =>
    match matchAtLoose (c :: cs) with
    | some x => some x
    | Option.none => searchLoose cs

/-- Embedding of `SIGNAL_PATTERNS["time_with_trend_strict"].search(text)`. -/
def searchStrict : List Char → Option (Nat × Nat × Char × List Char)
  | [] => Option.none
  | c :: cs =>
    match matchAtStrict (c :: cs) with
    | some x => some x
    | Option.none => searchStrict cs

theorem dropWhile_length_le (p : Char → Bool) (l : List Char) :
    (l.dropWhile p).length ≤ l.length := by
  induction l with
  | nil => simp [List.dropWhile]
  | cons a l ih =>
    rw [List.dropWhile]
    cases hpa : p a
    · simp
    · simp only [List.length_cons]
      omega

theorem matchMinTrend_length {cs : List Char} {m : Nat} {t : Char} {r : List Char}
    (h : matchMinTrend cs = some (m, t, r)) : r.length + 3 < cs.length := by
  match cs with
  | [] => simp [matchMinTrend] at h
  | [d1] => simp [matchMinTrend] at h
  | [d1, d2] => simp [matchMinTrend] at h
  | d1 :: d2 :: c3 :: rest =>
    rw [matchMinTrend] at h
    split at h
    · rename_i hcls
      have hlen : (rest.dropWhile isSpc).length ≤ rest.length := dropWhile_length_le _ _
      split at h
      · rename_i t0 r0 heq
        split at h
        · cases h
          rw [heq] at hlen
          simp only [List.length_cons] at hlen ⊢
          omega
        · cases h
      · cases h
    · cases h

theorem matchAtLoose_length {cs : List Char} {hh m : Nat} {t : Char} {r : List Char}
    (h : matchAtLoose cs = some (hh, m, t, r)) : r.length < cs.length := by
  rw [matchAtLoose] at h
  split at h
  · rename_i x heq2
    cases h
    match cs, heq2 with
    | d1 :: d2 :: c3 :: rest, heq2 =>
      rw [matchAtLoose2] at heq2
      split at heq2
      · split at heq2
        · rename_i m0 t0 r0 hmt
          cases heq2
          have h1 := matchMinTrend_length hmt
          have h2 : (rest.dropWhile isSpc).length ≤ rest.length := dropWhile_length_le _ _
          simp only [List.length_cons]
          omega
        · cases heq2
      · cases heq2
    | [], heq2 => simp [matchAtLoose2] at heq2
    | [d1], heq2 => simp [matchAtLoose2] at heq2
    | [d1, d2], heq2 => simp [matchAtLoose2] at heq2
  · match cs, h with
    | d1 :: c2 :: rest, h =>
      rw [matchAtLoose1] at h
      split at h
      · split at h
        · rename_i m0 t0 r0 hmt
          cases h
          have h1 := matchMinTrend_length hmt
          have h2 : (rest.dropWhile isSpc).length ≤ rest.length := dropWhile_length_le _ _
          simp only [List.length_cons]
          omega
        · cases h
      · cases h
    | [], h => simp [matchAtLoose1] at h
    | [d1], h => simp [matchAtLoose1] at h

/-- Fuel-indexed scan for `findall`: at each position try a match; on a
match resume after its end, otherwise advance one character.  Structural
recursion on the fuel keeps the function kernel-computable; by
`matchAtLoose_length` every match consumes at least one character, so fuel
equal to the input length never runs out (`countLooseAux_fuel`). -/
def countLooseAux : Nat → List Char → Nat
  | _, [] => 0
  | 0, _ :: _ => 0
  | fuel + 1, c :: rest =>
    match matchAtLoose (c :: rest) with
    | some (_, _, _, r) => 1 + countLooseAux fuel r
    | Option.none => countLooseAux fuel rest

/-- Embedding of `len(SIGNAL_PATTERNS["time_with_trend"].findall(text))`. -/
def countLoose (cs : List Char) : Nat :=
  countLooseAux cs.length cs

/-- The scan result does not depend on the fuel once the fuel covers the
input length, so `countLoose` computes the exact `findall` count. -/
theorem countLooseAux_fuel (f1 : Nat) : ∀ (f2 : Nat) (cs : List Char),
    cs.length ≤ f1 → cs.length ≤ f2 → countLooseAux f1 cs = countLooseAux f2 cs := by
  induction f1 with
  | zero =>
    intro f2 cs h1 _
    match cs with
    | [] =>
      match f2 with
      | 0 => rfl
      | _ + 1 => rfl
    | _ :: _ => simp at h1
  | succ f1 ih =>
    intro f2 cs h1 h2
    match cs with
    | [] =>
      match f2 with
      | 0 => rfl
      | _ + 1 => rfl
    | c :: rest =>
      match f2 with
      | 0 => simp at h2
      | f2 + 1 =>
        rw [countLooseAux, countLooseAux]
        simp only [List.length_cons] at h1 h2
        cases hm : matchAtLoose (c :: rest) with
        | some x =>
          obtain ⟨hh, m, t, r⟩ := x
          have hlen := matchAtLoose_length hm
          simp only [List.length_cons] at hlen
          show 1 + countLooseAux f1 r = 1 + countLooseAux f2 r
          rw [ih f2 r (by omega) (by omega)]
        | none =>
          show countLooseAux f1 rest = countLooseAux f2 rest
          rw [ih f2 rest (by omega) (by omega)]

/-! ### `signal_parser.py` — `parse_signal`

The source converts the UTC `message_time` to WIB (UTC+7) with `utc_to_wib`
and only ever reads the `hour`, `minute` and `second` fields of the result;
the conversion is a whole-hour shift, so it leaves the seconds field
unchanged.  The embedding therefore takes the local (WIB) wall-clock
components of the arrival instant directly.
-/

/-- Local (WIB) wall-clock components of an arrival instant. -/
structure WibTime where
  hour : Nat
  minute : Nat
  second : Nat
deriving DecidableEq

/-- The dict returned by `parse_signal` on success (`parsed_at`, a wall-clock
timestamp string, is omitted: no claim concerns it). -/
structure ParsedSignal where
  trend : String
  has_time : Bool
  hour : Nat
  minute : Nat
  second : Nat
  original_message : List Char
  auto_time_added : Bool
deriving DecidableEq

/-- Embedding of `parse_signal(message_text, message_time)` from `signal_parser.py`.
Returns `none` where the source returns `None`. -/
def parse_signal (msg : List Char) (mt : Option WibTime) : Option ParsedSignal :=
  let text := normalizeText msg
  if 1 < countLoose text then Option.none
  else
    match (match searchLoose text with
           | some x => some x
           | Option.none => searchStrict text) with
    | some (h, m, t, _) =>
      if h ≤ 23 ∧ m ≤ 59 then
        some { trend := if t = 'S' then "put" else "call"
             , has_time := true
             , hour := h
             , minute := m
             , second := match mt with | some w => w.second | Option.none => 0
             , original_message := msg
             , auto_time_added := false }
      else Option.none
    | Option.none =>
      if text = ['S'] ∨ text = ['B'] then
        match mt with
        | some w =>
          if 30 ≤ 60 - w.second then
            some { trend := if text = ['S'] then "put" else "call"
                 , has_time := true
                 , hour := (w.hour + (if w.minute = 59 then 1 else 0)) % 24
                 , minute := (w.minute + 1) % 60
                 , second := 0
                 , original_message := msg
                 , auto_time_added := true }
          else
            some { trend := if text = ['S'] then "put" else "call"
                 , has_time := true
                 , hour := (w.hour + (w.minute + 2) / 60) % 24
                 , minute := (w.minute + 2) % 60
                 , second := 0
                 , original_message := msg
                 , auto_time_added := true }
        | Option.none => Option.none
      else Option.none

/-! ### `statistics.py` — the `Statistics` accumulator

`start_time` (wall clock) is omitted; `signals_by_trend` is the fixed
two-key dict `{"call": _, "put": _}`, embedded as the two fields `calls` and
`puts`.  Each field of `log_signal` is transcribed field-wise from the
imperative updates: `total_signals += 1` always; on success
`successful_sends += 1`, the identifier is added to `devices_reached` when it
is truthy (a non-empty string), and exactly one of `admin_sends`/`user_sends`
is bumped according to `"admin" in user_type.lower()`; on failure
`failed_sends += 1`; finally `signals_by_trend[trend] += 1` when `trend` is
one of the two keys.
-/

structure Stats where
  total_signals : Nat
  successful_sends : Nat
  failed_sends : Nat
  calls : Nat
  puts : Nat
  devices_reached : Finset String
  user_sends : Nat
  admin_sends : Nat
deriving DecidableEq

/-- Embedding of `Statistics.__init__` (and hence `Statistics.reset`). -/
def initStats : Stats :=
  { total_signals := 0, successful_sends := 0, failed_sends := 0
  , calls := 0, puts := 0, devices_reached := ∅
  , user_sends := 0, admin_sends := 0 }

/-- Does `pat` occur at the head of the second list? -/
def listStartsWith : List Char → List Char → Bool
  | [], _ => true
  | _ :: _, [] => false
  | p :: ps, c :: cs => p = c && listStartsWith ps cs

/-- Does `pat` occur as a contiguous substring (Python `in` on strings)? -/
def containsSub (pat : List Char) : List Char → Bool
  | [] => listStartsWith pat []
  | c :: cs => listStartsWith pat (c :: cs) || containsSub pat cs

/-- Embedding of `"admin" in user_type.lower()`. -/
def isAdminType (ut : String) : Bool :=
  containsSub ("admin".toList) (ut.toList.map toLowerCh)

/-- Embedding of `Statistics.log_signal(trend, success, identifier, user_type)`. -/
def log_signal (st : Stats) (trend : String) (success : Bool)
    (identifier : Option String) (user_type : String) : Stats :=
  { total_signals := st.total_signals + 1
  , successful_sends := if success then st.successful_sends + 1 else st.successful_sends
  , failed_sends := if success then st.failed_sends else st.failed_sends + 1
  , calls := if trend = "call" then st.calls + 1 else st.calls
  , puts := if trend = "put" then st.puts + 1 else st.puts
  , devices_reached :=
      if success then
        match identifier with
        | some i => if i = "" then st.devices_reached else insert i st.devices_reached
        | Option.none => st.devices_reached
      else st.devices_reached
  , user_sends := if success && !isAdminType user_type then st.user_sends + 1 else st.user_sends
  , admin_sends := if success && isAdminType user_type then st.admin_sends + 1 else st.admin_sends }

/-- The summary dict built by `Statistics.get_summary` (the wall-clock
`uptime_seconds` and the formatted `success_rate` string are omitted). -/
structure StatsSummary where
  total_signals : Nat
  successful : Nat
  failed : Nat
  calls : Nat
  puts : Nat
  unique_devices : Nat
  user_sends : Nat
  admin_sends : Nat
deriving DecidableEq

/-- Embedding of `Statistics.get_summary`. -/
def get_summary (st : Stats) : StatsSummary :=
  { total_signals := st.total_signals
  , successful := st.successful_sends
  , failed := st.failed_sends
  , calls := st.calls
  , puts := st.puts
  , unique_devices := st.devices_reached.card
  , user_sends := st.user_sends
  , admin_sends := st.admin_sends }

/-- An operation on the process-wide `Statistics` instance. -/
inductive StatsOp where
  | log (trend : String) (success : Bool) (identifier : Option String) (user_type : String)
  | reset

def applyStatsOp (st : Stats) : StatsOp → Stats
  | StatsOp.log t s i u => log_signal st t s i u
  | StatsOp.reset => initStats

/-! ### `fcm_sender.py` — `send_signal_to_tokens`

The input dict `signal_data` is validated dynamically (`has_time` truthy,
`hour`/`minute` present and `isinstance(_, int)`), so the embedding keeps the
hour/minute slots as dynamic values (`PyField`): absent/`None`, an integer,
or something else.  The external `messaging.send` call either returns
(success), raises `messaging.UnregisteredError` (invalid token), or raises
some other exception (transient failure); the embedding tags each token
entry of the input list with the outcome of its send attempt, so one
dispatch run is a pure function of the (entry, outcome) list.
-/

/-- A dynamic value sitting in the `hour`/`minute` slot of the signal dict. -/
inductive PyField where
  | absent
  | intVal (n : Int)
  | nonInt
deriving DecidableEq

/-- The fields of the `signal_data` dict that `send_signal_to_tokens`
consults (the remaining fields only feed the FCM payload). -/
structure SignalData where
  trend : String
  has_time : Bool
  hour : PyField
  minute : PyField
  original_message : List Char
  auto_time_added : Bool
deriving DecidableEq

/-- One `(identifier, fcmToken, type)` tuple of the token list. -/
structure Recipient where
  identifier : String
  token : String
  user_type : String
deriving DecidableEq

/-- Outcome of the `messaging.send` call for one recipient: returned
normally, raised `messaging.UnregisteredError`, or raised any other
exception. -/
inductive SendOutcome where
  | ok
  | unregistered
  | failure
deriving DecidableEq

/-- The dict returned by `send_signal_to_tokens`. -/
structure FanOutResult where
  success : Nat
  failed : Nat
  total : Nat
  user_success : Nat
  admin_success : Nat
deriving DecidableEq

/-- The all-zero result returned on every guard/error path. -/
def zeroFanOut : FanOutResult :=
  { success := 0, failed := 0, total := 0, user_success := 0, admin_success := 0 }

/-- Loop state of the per-token `for` loop: the four local counters plus the
global `stats` object. -/
structure LoopAcc where
  success : Nat
  failed : Nat
  user_success : Nat
  admin_success : Nat
  st : Stats

/-- One iteration of the `for identifier, token, user_type in tokens` loop. -/
def sendStep (trend : String) (acc : LoopAcc) (entry : Recipient × SendOutcome) : LoopAcc :=
  match entry.2 with
  | SendOutcome.ok =>
    { success := acc.success + 1
    , failed := acc.failed
    , user_success := if isAdminType entry.1.user_type then acc.user_success else acc.user_success + 1
    , admin_success := if isAdminType entry.1.user_type then acc.admin_success + 1 else acc.admin_success
    , st := log_signal acc.st trend true (some entry.1.identifier) entry.1.user_type }
  | SendOutcome.unregistered =>
    { acc with
        failed := acc.failed + 1,
        st := log_signal acc.st trend false (some entry.1.identifier) entry.1.user_type }
  | SendOutcome.failure =>
    { acc with
        failed := acc.failed + 1,
        st := log_signal acc.st trend false (some entry.1.identifier) entry.1.user_type }

/-- Embedding of `send_signal_to_tokens(signal_data, tokens)`: the guard chain of the
source (`has_time` falsy → zero result; `hour`/`minute` absent or not `int`
→ zero result; empty token list → zero result), then one send attempt per
token entry, each entry's failure caught by its own `except` clause. The
global `stats` object is passed and returned explicitly. -/
def send_signal_to_tokens (sd : SignalData) (tokens : List (Recipient × SendOutcome))
    (st : Stats) : FanOutResult × Stats :=
  if sd.has_time = false then (zeroFanOut, st)
  else
    match sd.hour, sd.minute with
    | PyField.intVal _, PyField.intVal _ =>
      if tokens.isEmpty then (zeroFanOut, st)
      else
        let acc := tokens.foldl (sendStep sd.trend)
          { success := 0, failed := 0, user_success := 0, admin_success := 0, st := st }
        ({ success := acc.success, failed := acc.failed, total := tokens.length
         , user_success := acc.user_success, admin_success := acc.admin_success }, acc.st)
    | _, _ => (zeroFanOut, st)

/-! ### `telegram_client.py` — reconnect/backoff dynamics of
`listen_telegram_signals`

The `while True` loop keeps three pieces of state relevant to the claims:
`retry_count` (reset to 0 on successful connection), `retry_delay`
(reset to 5 on successful connection), and whether the loop has exited
permanently (`break` after `max_retries` is reached).  On a retryable
connection failure the outer `except Exception` handler runs:
`retry_count += 1`; if `retry_count >= max_retries` the loop breaks without
sleeping; otherwise it sleeps `retry_delay` and then sets
`retry_delay = min(retry_delay * 1.5, 60)`.

A `FloodWaitError` is handled by first sleeping the server-specified
`e.seconds` in the inner handler and then re-raising, so the same outer
handler runs afterwards.

Delays are modelled in `ℚ`; each step also reports the list of durations
slept, in order.
-/

/-- The source constant `max_retries = 10`. -/
def maxRetries : Nat := 10

structure SupState where
  retry_count : Nat
  retry_delay : ℚ
  terminated : Bool
deriving DecidableEq

/-- State at entry of the `while True` loop: `retry_count = 0`,
`retry_delay = 5`. -/
def initSup : SupState :=
  { retry_count := 0, retry_delay := 5, terminated := false }

/-- A successful (re)connection: `retry_count = 0; retry_delay = 5`. -/
def successStep (s : SupState) : SupState :=
  if s.terminated then s
  else { retry_count := 0, retry_delay := 5, terminated := false }

/-- One retryable connection failure handled by the outer
`except Exception` clause.  Returns the new state and the delay slept
(`none` when the retry ceiling is hit and the loop breaks instead). -/
def failStep (s : SupState) : SupState × Option ℚ :=
  if s.terminated then (s, Option.none)
  else
    let rc := s.retry_count + 1
    if maxRetries ≤ rc then
      ({ retry_count := rc, retry_delay := s.retry_delay, terminated := true }, Option.none)
    else
      ({ retry_count := rc, retry_delay := min (s.retry_delay * (3 / 2)) 60, terminated := false },
        some s.retry_delay)

/-- State and slept-delay trace after `n` consecutive retryable failures
starting from a fresh connection loop. -/
def runFails : Nat → SupState × List ℚ
  | 0 => (initSup, [])
  | n + 1 =>
    let p := runFails n
    let q := failStep p.1
    (q.1, p.2 ++ q.2.toList)

/-- A `FloodWaitError` carrying wait duration `d`: the inner handler sleeps
`d` and re-raises, then the outer handler treats it as one more retryable
failure (increment, possible break, backoff sleep).  Returns the new state
and the durations slept, in order. -/
def floodWaitStep (d : ℚ) (s : SupState) : SupState × List ℚ :=
  if s.terminated then (s, [])
  else
    let p := failStep s
    (p.1, d :: p.2.toList)

/-! ### Derived predicates and concrete fixtures used by the theorems -/

/-- The two accounting equations of the `Statistics` accumulator. -/
def statsInv (st : Stats) : Prop :=
  st.total_signals = st.successful_sends + st.failed_sends ∧
  st.successful_sends = st.user_sends + st.admin_sends

/-- Fixture: an end-user recipient with a valid token. -/
def recA : Recipient :=
  { identifier := "alice@example.com", token := "tokA", user_type := "user" }

/-- Fixture: an end-user recipient whose token is unregistered. -/
def recB : Recipient :=
  { identifier := "bob@example.com", token := "tokB", user_type := "user" }

/-- Fixture: an operator recipient whose send fails transiently. -/
def recC : Recipient :=
  { identifier := "carol@example.com", token := "tokC", user_type := "super_admin" }

/-- Fixture: a fully time-qualified call directive as the Interpreter
produces it. -/
def sdCall : SignalData :=
  { trend := "call", has_time := true, hour := PyField.intVal 9
  , minute := PyField.intVal 5, original_message := ['9', ':', '0', '5', ' ', 'B']
  , auto_time_added := false }

/-- Fixture: a directive missing its time qualification. -/
def sdNoTime : SignalData :=
  { trend := "call", has_time := false, hour := PyField.absent
  , minute := PyField.absent, original_message := ['B']
  , auto_time_added := false }

/-! ## Claims -/

/-- C4: for every text whose normalised (trimmed, uppercased) form contains
more than one occurrence of the time-with-trend pattern, `parse_signal`
rejects (returns `None`) — the message is never split into multiple
directives, regardless of the individual occurrences' validity. -/
theorem multi_signal_rejected (msg : List Char) (mt : Option WibTime)
    (hc : 1 < countLoose (normalizeText msg)) :
    parse_signal msg mt = Option.none := by
  simp only [parse_signal]
  rw [if_pos hc]

/-- Witness for C4: a text holding two valid time-with-trend occurrences is
rejected. -/
theorem multi_signal_rejected_witness :
    parse_signal ("9:05 B 10:06 S".toList) Option.none = Option.none :=
  multi_signal_rejected ("9:05 B 10:06 S".toList) Option.none (by decide)

/-- C3: for every text whose normalised form contains a (unique) occurrence
of the time-with-trend pattern with hour ≤ 23 and minute ≤ 59,
`parse_signal` yields a signal dict carrying exactly the parsed hour and
minute, trend `"put"` for `S` and `"call"` for `B`, `auto_time_added =
False`, and seconds taken from the arrival instant's local seconds field
when one is supplied and 0 otherwise. -/
theorem timed_signal_parsed (msg : List Char) (mt : Option WibTime)
    (h m : Nat) (t : Char) (r : List Char)
    (hsearch : searchLoose (normalizeText msg) = some (h, m, t, r))
    (hcount : countLoose (normalizeText msg) ≤ 1)
    (hh : h ≤ 23) (hm : m ≤ 59) :
    parse_signal msg mt =
      some { trend := if t = 'S' then "put" else "call"
           , has_time := true
           , hour := h
           , minute := m
           , second := match mt with | some w => w.second | Option.none => 0
           , original_message := msg
           , auto_time_added := false } := by
  simp only [parse_signal, hsearch]
  rw [if_neg (by omega)]
  rw [if_pos ⟨hh, hm⟩]

/-- Witness for C3: `"9:05 B"` arriving at local second 7 parses to a call
at 09:05:07 with `auto_time_added = False`. -/
theorem timed_signal_parsed_witness :
    parse_signal ("9:05 B".toList) (some ⟨21, 30, 7⟩) =
      some { trend := "call", has_time := true, hour := 9, minute := 5
           , second := 7, original_message := "9:05 B".toList
           , auto_time_added := false } := by
  have h := timed_signal_parsed ("9:05 B".toList) (some ⟨21, 30, 7⟩) 9 5 'B' []
    (by decide) (by decide) (by decide) (by decide)
  simpa using h

/-- C5: `parse_signal` is total — every input yields either a signal dict or
the `None` rejection; a matched time outside the valid ranges (hour > 23 or
minute > 59, e.g. `"25:00 S"`) yields the normal rejection, and every dict
it does produce is fully time-qualified with in-range components. -/
theorem parser_total (msg : List Char) (mt : Option WibTime) :
    (parse_signal msg mt = Option.none ∨ ∃ p, parse_signal msg mt = some p) ∧
    (∀ h m t r, searchLoose (normalizeText msg) = some (h, m, t, r) →
      23 < h ∨ 59 < m → parse_signal msg mt = Option.none) ∧
    (∀ p, parse_signal msg mt = some p →
      p.has_time = true ∧ p.hour ≤ 23 ∧ p.minute ≤ 59 ∧
      (p.trend = "put" ∨ p.trend = "call")) := by
  refine ⟨?_, ?_, ?_⟩
  · cases hp : parse_signal msg mt with
    | none => exact Or.inl rfl
    | some p => exact Or.inr ⟨p, rfl⟩
  · intro h m t r hsearch hout
    simp only [parse_signal, hsearch]
    by_cases hc : 1 < countLoose (normalizeText msg)
    · rw [if_pos hc]
    · rw [if_neg hc]
      rw [if_neg (by omega)]
  · intro p hp
    simp only [parse_signal] at hp
    split at hp
    · cases hp
    · split at hp
      · rename_i ht hmt
        split at hp
        · rename_i hrange
          cases hp
          refine ⟨rfl, hrange.1, hrange.2, ?_⟩
          split
          · exact Or.inl rfl
          · exact Or.inr rfl
        · cases hp
      · split at hp
        · split at hp
          · split at hp
            · cases hp
              refine ⟨rfl, ?_, ?_, ?_⟩
              · simp only []
                omega
              · simp only []
                omega
              · split
                · exact Or.inl rfl
                · exact Or.inr rfl
            · cases hp
              refine ⟨rfl, ?_, ?_, ?_⟩
              · simp only []
                omega
              · simp only []
                omega
              · split
                · exact Or.inl rfl
                · exact Or.inr rfl
          · cases hp
        · cases hp

/-- Witness for C5: the out-of-range time `"25:00 S"` is rejected, not an
error. -/
theorem parser_total_witness :
    parse_signal ("25:00 S".toList) Option.none = Option.none :=
  (parser_total ("25:00 S".toList) Option.none).2.1 25 0 'S' []
    (by decide) (Or.inl (by decide))

/-- C2: for every text normalising to the bare trend letter `S` or `B` with
arrival local time `h:m:s`: when `60 - s ≥ 30` the parsed signal targets the
next minute boundary (`m + 1`) at second 0, otherwise two minutes ahead
(`m + 2`) at second 0, with minute arithmetic wrapping modulo 60 and hour
arithmetic modulo 24 (expressed by `(m + k) % 60` / `(h + (m + k) / 60) %
24`), `auto_time_added = True`, and the target composing correctly across
the day boundary: its wall-clock offset equals the arrival time plus the
delay to the chosen boundary, modulo 24 hours. -/
theorem bare_trend_schedule (msg : List Char) (h m s : Nat)
    (hmsg : normalizeText msg = ['S'] ∨ normalizeText msg = ['B'])
    (_hh : h < 24) (hm : m < 60) (hs : s < 60) :
    parse_signal msg (some ⟨h, m, s⟩) =
      some { trend := if normalizeText msg = ['S'] then "put" else "call"
           , has_time := true
           , hour := (h + (m + (if 30 ≤ 60 - s then 1 else 2)) / 60) % 24
           , minute := (m + (if 30 ≤ 60 - s then 1 else 2)) % 60
           , second := 0
           , original_message := msg
           , auto_time_added := true } ∧
    3600 * ((h + (m + (if 30 ≤ 60 - s then 1 else 2)) / 60) % 24)
        + 60 * ((m + (if 30 ≤ 60 - s then 1 else 2)) % 60)
      = (3600 * h + 60 * m + s + (if 30 ≤ 60 - s then 60 - s else 120 - s)) % 86400 := by
  have hq : (m + 1) / 60 = (if m = 59 then 1 else 0) := by
    by_cases h59 : m = 59
    · rw [if_pos h59, h59]
    · rw [if_neg h59]
      omega
  constructor
  · obtain hm1 | hm1 := hmsg
    · simp only [parse_signal, hm1]
      rw [if_neg (by decide)]
      rw [show searchLoose ['S'] = Option.none from rfl]
      rw [show searchStrict ['S'] = Option.none from rfl]
      rw [if_pos (by decide)]
      by_cases h30 : 30 ≤ 60 - s
      · simp only [if_pos h30]
        rw [hq]
      · simp only [if_neg h30]
    · simp only [parse_signal, hm1]
      rw [if_neg (by decide)]
      rw [show searchLoose ['B'] = Option.none from rfl]
      rw [show searchStrict ['B'] = Option.none from rfl]
      rw [if_pos (by decide)]
      by_cases h30 : 30 ≤ 60 - s
      · simp only [if_pos h30]
        rw [hq]
      · simp only [if_neg h30]
  · by_cases h30 : 30 ≤ 60 - s
    · simp only [if_pos h30]
      omega
    · simp only [if_neg h30]
      omega

/-- Witness for C2 at the day boundary: the bare trend `"S"` arriving at
23:59:40 (20 seconds remaining, so the +2-minute branch) schedules
00:01:00. -/
theorem bare_trend_schedule_witness :
    parse_signal ['S'] (some ⟨23, 59, 40⟩) =
      some { trend := "put", has_time := true, hour := 0, minute := 1
           , second := 0, original_message := ['S'], auto_time_added := true } ∧
    parse_signal ['B'] (some ⟨14, 7, 10⟩) =
      some { trend := "call", has_time := true, hour := 14, minute := 8
           , second := 0, original_message := ['B'], auto_time_added := true } := by
  constructor
  · have h := bare_trend_schedule ['S'] 23 59 40 (Or.inl (by decide))
      (by decide) (by decide) (by decide)
    simpa using h.1
  · have h := bare_trend_schedule ['B'] 14 7 10 (Or.inr (by decide))
      (by decide) (by decide) (by decide)
    simpa using h.1

/-- Helper: every loop iteration classifies its recipient as exactly one of
success / failed, so the two counters always sum to the number of entries
processed. -/
theorem foldl_sendStep_counts (trend : String) (entries : List (Recipient × SendOutcome)) :
    ∀ acc : LoopAcc,
      (entries.foldl (sendStep trend) acc).success
          + (entries.foldl (sendStep trend) acc).failed
        = acc.success + acc.failed + entries.length := by
  induction entries with
  | nil =>
    intro acc
    simp
  | cons e es ih =>
    intro acc
    rw [List.foldl_cons, ih]
    cases hout : e.2 <;> simp [sendStep, hout] <;> omega

/-- Helper: every loop iteration logs exactly one signal, whatever the
outcome. -/
theorem foldl_sendStep_total (trend : String) (entries : List (Recipient × SendOutcome)) :
    ∀ acc : LoopAcc,
      (entries.foldl (sendStep trend) acc).st.total_signals
        = acc.st.total_signals + entries.length := by
  induction entries with
  | nil =>
    intro acc
    simp
  | cons e es ih =>
    intro acc
    rw [List.foldl_cons, ih]
    cases hout : e.2 <;> simp [sendStep, hout, log_signal] <;> omega

/-- Helper: with a `"call"` trend every iteration bumps the call counter. -/
theorem foldl_sendStep_calls (entries : List (Recipient × SendOutcome)) :
    ∀ acc : LoopAcc,
      (entries.foldl (sendStep "call") acc).st.calls = acc.st.calls + entries.length := by
  induction entries with
  | nil =>
    intro acc
    simp
  | cons e es ih =>
    intro acc
    rw [List.foldl_cons, ih]
    cases hout : e.2 <;> simp [sendStep, hout, log_signal] <;> omega

/-- Helper: with a `"put"` trend every iteration bumps the put counter. -/
theorem foldl_sendStep_puts (entries : List (Recipient × SendOutcome)) :
    ∀ acc : LoopAcc,
      (entries.foldl (sendStep "put") acc).st.puts = acc.st.puts + entries.length := by
  induction entries with
  | nil =>
    intro acc
    simp
  | cons e es ih =>
    intro acc
    rw [List.foldl_cons, ih]
    cases hout : e.2 <;> simp [sendStep, hout, log_signal] <;> omega

/-- C9: in every `Statistics` state reachable from the initial state by any
sequence of `log_signal` and `reset` calls, `total_signals =
successful_sends + failed_sends` and `successful_sends = user_sends +
admin_sends`; moreover every single `log_signal` call preserves both
equations. -/
theorem stats_accounting_invariant :
    (∀ ops : List StatsOp, statsInv (ops.foldl applyStatsOp initStats)) ∧
    (∀ (st : Stats) (t : String) (su : Bool) (i : Option String) (u : String),
      statsInv st → statsInv (log_signal st t su i u)) := by
  have hlog : ∀ (st : Stats) (t : String) (su : Bool) (i : Option String) (u : String),
      statsInv st → statsInv (log_signal st t su i u) := by
    intro st t su i u hst
    obtain ⟨h1, h2⟩ := hst
    cases su <;> cases hadm : isAdminType u <;>
      simp [statsInv, log_signal, hadm] <;> omega
  refine ⟨?_, hlog⟩
  have hall : ∀ (l : List StatsOp) (st : Stats), statsInv st →
      statsInv (l.foldl applyStatsOp st) := by
    intro l
    induction l with
    | nil =>
      intro st hst
      exact hst
    | cons op l ih =>
      intro st hst
      rw [List.foldl_cons]
      refine ih _ ?_
      cases op with
      | log t su i u => exact hlog st t su i u hst
      | reset => exact ⟨rfl, rfl⟩
  intro ops
  exact hall ops initStats ⟨rfl, rfl⟩

/-- Witness for C9: the invariant after one successful log on a fresh
accumulator. -/
theorem stats_accounting_invariant_witness :
    statsInv (log_signal initStats "call" true (some "alice@example.com") "user") :=
  stats_accounting_invariant.2 initStats "call" true (some "alice@example.com") "user"
    ⟨rfl, rfl⟩

/-- C6: dispatch with an incomplete directive (time flag unset, or
hour/minute absent or non-integer) or an empty recipient list returns the
all-zero FanOutResult, leaves the statistics untouched, and attempts no
send. -/
theorem dispatch_guard_zero (sd : SignalData) (tokens : List (Recipient × SendOutcome))
    (st : Stats)
    (hbad : sd.has_time = false ∨ sd.hour = PyField.absent ∨ sd.hour = PyField.nonInt ∨
      sd.minute = PyField.absent ∨ sd.minute = PyField.nonInt ∨ tokens = []) :
    send_signal_to_tokens sd tokens st = (zeroFanOut, st) := by
  unfold send_signal_to_tokens
  by_cases hht : sd.has_time = false
  · rw [if_pos hht]
  · rw [if_neg hht]
    rcases hbad with h | h | h | h | h | h
    · exact absurd h hht
    · rw [h]
    · rw [h]
    · rw [h]
      cases sd.hour <;> rfl
    · rw [h]
      cases sd.hour <;> rfl
    · subst h
      cases sd.hour <;> cases sd.minute <;> rfl

/-- Witness for C6: a directive with no time flag yields the zero result on
a fresh statistics object. -/
theorem dispatch_guard_zero_witness :
    send_signal_to_tokens sdNoTime [(recA, SendOutcome.ok)] initStats
      = (zeroFanOut, initStats) :=
  dispatch_guard_zero sdNoTime [(recA, SendOutcome.ok)] initStats (Or.inl rfl)

/-- C1: for every valid directive, dispatch attempts exactly one send per
recipient entry and classifies each as success or failure, so a failure on
one recipient never prevents the attempts on the remaining ones; for the
three-recipient list [A(valid), B(invalid token), C(transient failure)] the
aggregate is total 3 / succeeded 1 / failed 2, the statistics'
successful-send counter grows by exactly 1 and the failed-send counter by
exactly 2, and A's identifier joins the unique-recipients-reached set. -/
theorem fanout_isolation (sd : SignalData) (st : Stats) (A B C : Recipient) (nh nm : Int)
    (hht : sd.has_time = true) (hhour : sd.hour = PyField.intVal nh)
    (hmin : sd.minute = PyField.intVal nm) (hA : ¬A.identifier = "") :
    (∀ entries : List (Recipient × SendOutcome),
      (send_signal_to_tokens sd entries st).1.total = entries.length ∧
      (send_signal_to_tokens sd entries st).1.success
          + (send_signal_to_tokens sd entries st).1.failed = entries.length) ∧
    ((send_signal_to_tokens sd
        [(A, SendOutcome.ok), (B, SendOutcome.unregistered), (C, SendOutcome.failure)]
        st).1.total = 3 ∧
      (send_signal_to_tokens sd
        [(A, SendOutcome.ok), (B, SendOutcome.unregistered), (C, SendOutcome.failure)]
        st).1.success = 1 ∧
      (send_signal_to_tokens sd
        [(A, SendOutcome.ok), (B, SendOutcome.unregistered), (C, SendOutcome.failure)]
        st).1.failed = 2 ∧
      (send_signal_to_tokens sd
        [(A, SendOutcome.ok), (B, SendOutcome.unregistered), (C, SendOutcome.failure)]
        st).2.successful_sends = st.successful_sends + 1 ∧
      (send_signal_to_tokens sd
        [(A, SendOutcome.ok), (B, SendOutcome.unregistered), (C, SendOutcome.failure)]
        st).2.failed_sends = st.failed_sends + 2 ∧
      A.identifier ∈ (send_signal_to_tokens sd
        [(A, SendOutcome.ok), (B, SendOutcome.unregistered), (C, SendOutcome.failure)]
        st).2.devices_reached) := by
  constructor
  · intro entries
    by_cases hne : entries = []
    · subst hne
      simp [send_signal_to_tokens, hht, hhour, hmin, zeroFanOut]
    · have hne2 : entries.isEmpty = false := by
        cases entries with
        | nil => exact absurd rfl hne
        | cons a l => rfl
      constructor
      · simp [send_signal_to_tokens, hht, hhour, hmin, hne2]
      · have hc := foldl_sendStep_counts sd.trend entries
          { success := 0, failed := 0, user_success := 0, admin_success := 0, st := st }
        simp [send_signal_to_tokens, hht, hhour, hmin, hne2]
        simpa using hc
  · simp [send_signal_to_tokens, hht, hhour, hmin, sendStep, log_signal, hA]

/-- Witness for C1: the fixture directive dispatched to the three fixture
recipients. -/
theorem fanout_isolation_witness :
    (send_signal_to_tokens sdCall
        [(recA, SendOutcome.ok), (recB, SendOutcome.unregistered), (recC, SendOutcome.failure)]
        initStats).1.total = 3 ∧
    (send_signal_to_tokens sdCall
        [(recA, SendOutcome.ok), (recB, SendOutcome.unregistered), (recC, SendOutcome.failure)]
        initStats).1.success = 1 ∧
    (send_signal_to_tokens sdCall
        [(recA, SendOutcome.ok), (recB, SendOutcome.unregistered), (recC, SendOutcome.failure)]
        initStats).1.failed = 2 ∧
    (send_signal_to_tokens sdCall
        [(recA, SendOutcome.ok), (recB, SendOutcome.unregistered), (recC, SendOutcome.failure)]
        initStats).2.successful_sends = initStats.successful_sends + 1 ∧
    (send_signal_to_tokens sdCall
        [(recA, SendOutcome.ok), (recB, SendOutcome.unregistered), (recC, SendOutcome.failure)]
        initStats).2.failed_sends = initStats.failed_sends + 2 ∧
    recA.identifier ∈ (send_signal_to_tokens sdCall
        [(recA, SendOutcome.ok), (recB, SendOutcome.unregistered), (recC, SendOutcome.failure)]
        initStats).2.devices_reached :=
  (fanout_isolation sdCall initStats recA recB recC 9 5 rfl rfl rfl (by decide)).2

/-- C10: dispatching a valid directive to n recipient entries increases the
statistics' total-signals counter by exactly n and the per-trend counter of
the directive's trend by exactly n — one increment per send attempt, not
one per directive — so the total-signals diagnostic of the summary equals
the cumulative number of send attempts. -/
theorem dispatch_counts_attempts (sd : SignalData) (entries : List (Recipient × SendOutcome))
    (st : Stats) (nh nm : Int)
    (hht : sd.has_time = true) (hhour : sd.hour = PyField.intVal nh)
    (hmin : sd.minute = PyField.intVal nm) :
    (send_signal_to_tokens sd entries st).2.total_signals
        = st.total_signals + entries.length ∧
    (sd.trend = "call" →
      (send_signal_to_tokens sd entries st).2.calls = st.calls + entries.length) ∧
    (sd.trend = "put" →
      (send_signal_to_tokens sd entries st).2.puts = st.puts + entries.length) ∧
    (get_summary (send_signal_to_tokens sd entries st).2).total_signals
        = st.total_signals + entries.length := by
  by_cases hne : entries = []
  · subst hne
    simp [send_signal_to_tokens, hht, hhour, hmin, get_summary, zeroFanOut]
  · have hne2 : entries.isEmpty = false := by
      cases entries with
      | nil => exact absurd rfl hne
      | cons a l => rfl
    have hred : (send_signal_to_tokens sd entries st).2
        = (entries.foldl (sendStep sd.trend)
            { success := 0, failed := 0, user_success := 0, admin_success := 0, st := st }).st := by
      simp [send_signal_to_tokens, hht, hhour, hmin, hne2]
    rw [hred]
    refine ⟨?_, fun htr => ?_, fun htr => ?_, ?_⟩
    · simpa using foldl_sendStep_total sd.trend entries
        { success := 0, failed := 0, user_success := 0, admin_success := 0, st := st }
    · rw [htr]
      simpa using foldl_sendStep_calls entries
        { success := 0, failed := 0, user_success := 0, admin_success := 0, st := st }
    · rw [htr]
      simpa using foldl_sendStep_puts entries
        { success := 0, failed := 0, user_success := 0, admin_success := 0, st := st }
    · rw [get_summary]
      simpa using foldl_sendStep_total sd.trend entries
        { success := 0, failed := 0, user_success := 0, admin_success := 0, st := st }

/-- Witness for C10: dispatching the fixture call directive to two entries
grows `total_signals` and the call counter by 2. -/
theorem dispatch_counts_attempts_witness :
    (send_signal_to_tokens sdCall [(recA, SendOutcome.ok), (recB, SendOutcome.failure)]
        initStats).2.total_signals = 2 ∧
    (send_signal_to_tokens sdCall [(recA, SendOutcome.ok), (recB, SendOutcome.failure)]
        initStats).2.calls = 2 := by
  have h := dispatch_counts_attempts sdCall
    [(recA, SendOutcome.ok), (recB, SendOutcome.failure)] initStats 9 5 rfl rfl rfl
  exact ⟨h.1, h.2.1 rfl⟩

/-- C7 counterexample: over ten consecutive retryable failures the slept
backoff delays are exactly [5, 7.5, 11.25, 16.875, 25.3125, 37.96875,
56.953125, 60, 60]; the values 37.97 and 56.95 named by the claim never
occur. -/
theorem backoff_sequence_counterexample :
    (runFails 10).2 = [5, 15 / 2, 45 / 4, 135 / 8, 405 / 16, 1215 / 32, 3645 / 64, 60, 60] ∧
    ¬(37.97 : ℚ) ∈ [(5 : ℚ), 15 / 2, 45 / 4, 135 / 8, 405 / 16, 1215 / 32, 3645 / 64, 60, 60] ∧
    ¬(56.95 : ℚ) ∈ [(5 : ℚ), 15 / 2, 45 / 4, 135 / 8, 405 / 16, 1215 / 32, 3645 / 64, 60, 60] := by
  refine ⟨?_, ?_, ?_⟩
  · norm_num [runFails, failStep, initSup, maxRetries, min_def]
  · norm_num
  · norm_num

/-- C7 (amended): the retry delay starts at base 5, multiplies by 1.5 after
each failed attempt and is capped at 60, so across consecutive retryable
failures the delay variable takes the values 5, 7.5, 11.25, 16.875,
25.3125, 37.96875, 56.953125, 60, 60, 60; the first nine values are slept,
and the tenth consecutive failure reaches the bounded retry maximum (10)
and terminates permanently without a further sleep; the delay resets to the
base 5 immediately after any successful reconnect. -/
theorem backoff_exact_sequence :
    (runFails 10).2 = [5, 15 / 2, 45 / 4, 135 / 8, 405 / 16, 1215 / 32, 3645 / 64, 60, 60] ∧
    (runFails 9).1.terminated = false ∧
    (runFails 9).1.retry_delay = 60 ∧
    (runFails 10).1.terminated = true ∧
    (runFails 10).1.retry_count = 10 ∧
    (∀ s : SupState, s.terminated = false →
      (failStep s).1.retry_delay =
        if maxRetries ≤ s.retry_count + 1 then s.retry_delay
        else min (s.retry_delay * (3 / 2)) 60) ∧
    (∀ s : SupState, s.terminated = false →
      successStep s = { retry_count := 0, retry_delay := 5, terminated := false }) := by
  refine ⟨?_, ?_, ?_, ?_, ?_, ?_, ?_⟩
  · norm_num [runFails, failStep, initSup, maxRetries, min_def]
  · norm_num [runFails, failStep, initSup, maxRetries, min_def]
  · norm_num [runFails, failStep, initSup, maxRetries, min_def]
  · norm_num [runFails, failStep, initSup, maxRetries, min_def]
  · norm_num [runFails, failStep, initSup, maxRetries, min_def]
  · intro s hs
    by_cases hmax : maxRetries ≤ s.retry_count + 1
    · simp [failStep, hs, hmax]
    · simp [failStep, hs, hmax]
  · intro s hs
    unfold successStep
    rw [hs]
    simp

/-- Witness for C7 at concrete states: a successful reconnect resets the
delay to 5, and the first failure from a fresh loop backs off from 5. -/
theorem backoff_exact_sequence_witness :
    successStep { retry_count := 3, retry_delay := 60, terminated := false }
        = { retry_count := 0, retry_delay := 5, terminated := false } ∧
    (failStep initSup).1.retry_delay = min ((5 : ℚ) * (3 / 2)) 60 := by
  have h := backoff_exact_sequence
  refine ⟨h.2.2.2.2.2.2 { retry_count := 3, retry_delay := 60, terminated := false } rfl, ?_⟩
  have h2 := h.2.2.2.2.2.1 initSup rfl
  rw [h2]
  rw [if_neg (by norm_num [initSup, maxRetries])]
  norm_num [initSup]

/-- C8 counterexample: a rate-limit wait of 3 units hitting a fresh
supervisor sleeps [3, 5] — the server-specified duration and then
additionally the current exponential-backoff delay — not [3] alone. -/
theorem floodwait_counterexample :
    (floodWaitStep 3 initSup).2 = [3, 5] ∧ ¬([(3 : ℚ), 5] = [(3 : ℚ)]) := by
  constructor
  · norm_num [floodWaitStep, failStep, initSup, maxRetries]
  · simp

/-- C8 (amended): on a rate-limit response specifying wait duration d, the
supervisor sleeps d first and counts the event as exactly one retry
attempt, but then — unless the retry maximum is reached — additionally
sleeps the current exponential-backoff delay before reconnecting, so the
backoff delay is applied on top of d rather than skipped. -/
theorem floodwait_sleeps_then_backoff (d : ℚ) (s : SupState) (hs : s.terminated = false) :
    (floodWaitStep d s).1.retry_count = s.retry_count + 1 ∧
    (floodWaitStep d s).2 =
      d :: (if maxRetries ≤ s.retry_count + 1 then [] else [s.retry_delay]) := by
  by_cases hmax : maxRetries ≤ s.retry_count + 1
  · simp [floodWaitStep, failStep, hs, hmax]
  · simp [floodWaitStep, failStep, hs, hmax]

/-- Witness for C8: the concrete flood-wait of 3 units on a fresh
supervisor. -/
theorem floodwait_sleeps_then_backoff_witness :
    (floodWaitStep 3 initSup).1.retry_count = 1 ∧
    (floodWaitStep 3 initSup).2 = [3, (5 : ℚ)] := by
  have h := floodwait_sleeps_then_backoff 3 initSup rfl
  refine ⟨h.1, ?_⟩
  rw [h.2]
  rw [if_neg (by norm_num [initSup, maxRetries])]
  rfl

end FCM
